import Mathlib

/-!
# Google Cloud Run authentication for the Infinity datasource

A shallow embedding of `pkg/infinity/google_cloud.go`:

* `IsGoogleCloudRunAuthConfigured`, the predicate on the method selector;
* `ApplyGoogleCloudRunAuth`, which either hands back the caller's client or
  allocates a new `http.Client` whose transport is an `oauth2.Transport`.

Go values are modelled as follows.

* A Go `string` is a Lean `String`; `[]byte(s)` is the UTF-8 encoding of `s`.
* An interface value or pointer that may be `nil` is an `Option`
  (`none` is `nil`).
* `*http.Client` and `*oauth2.Transport` are addresses into a heap
  (`World.clients`, `World.transports`); `&T{...}` allocates a fresh cell at
  the end of the heap.  Reading through a `nil` pointer is the Go run-time
  panic "invalid memory address or nil pointer dereference".
* The two acquisition functions are parameters.  Each is a func value: `none`
  is the nil func value, and calling it is the same run-time panic; a non-nil
  one is a function that may read and change an environment of an arbitrary
  type `σ`.  Every invocation of a non-nil one is recorded, with its
  arguments, in `World.calls`.
-/

namespace Infinity

/-! ## Go library values -/

/-- A non-nil Go `error` value, identified by the text of its `Error()` method. -/
structure GoError where
  msg : String
  deriving DecidableEq, Repr

/-- A `context.Context`, identified by a number. -/
abbrev Context := Nat

/-- A non-nil `oauth2.TokenSource` implementation, identified by a number. -/
structure TokenSourceImpl where
  id : Nat
  deriving DecidableEq, Repr

/-- The interface `oauth2.TokenSource`: `none` is the nil interface value. -/
abbrev TokenSource := Option TokenSourceImpl

/-- The struct `google.Credentials`, of which only the field `TokenSource` is read. -/
structure Credentials where
  TokenSource : TokenSource
  deriving DecidableEq, Repr

/-- An `option.ClientOption`, identified by a number. -/
abbrev ClientOption := Nat

/-- The interface `http.RoundTripper`: the nil interface value, a pointer to an
`oauth2.Transport` in the heap, or any other implementation (identified by a number). -/
inductive RoundTripper where
  | nil : RoundTripper
  | oauth2Transport (addr : Nat) : RoundTripper
  | other (id : Nat) : RoundTripper
  deriving DecidableEq, Repr

/-- The struct `oauth2.Transport`. -/
structure OAuth2Transport where
  Source : TokenSource
  Base : RoundTripper
  deriving DecidableEq, Repr

/-- The struct `http.Client`.  `CheckRedirect` (a function value) and `Jar` (an
interface value) are `none` when nil; `Timeout` is a `time.Duration` in nanoseconds. -/
structure Client where
  Transport : RoundTripper
  CheckRedirect : Option Nat
  Jar : Option Nat
  Timeout : Int
  deriving DecidableEq, Repr

/-- The string that the verb `%v` prints for an `error` operand. -/
def fmt.verbV : Option GoError → String
  | none => "<nil>"
  | some e => e.msg

/-- The call `fmt.Errorf(text)` for a format without verbs. -/
def fmt.Errorf (text : String) : GoError :=
  ⟨text⟩

/-- The call `fmt.Errorf(text + "%v", err)`: `text` followed by the operand printed with `%v`. -/
def fmt.ErrorfV (text : String) (err : Option GoError) : GoError :=
  ⟨text ++ fmt.verbV err⟩

/-- The conversion `[]byte(s)`. -/
def bytes (s : String) : List UInt8 :=
  s.toUTF8.data.toList

/-! ## Package `models` -/

/-- Modelled from the spec: the declaration of `models.InfinitySettings` is not among
the sources.  The record carries an authentication-method selector, an audience string
and an optional embedded service-account key; `Other` stands for all remaining fields. -/
structure InfinitySettings where
  AuthenticationMethod : String
  GoogleCloudRunAudience : String
  GoogleCloudRunServiceAccountKey : String
  Other : List (String × String)
  deriving DecidableEq, Repr

/-- The constants of package `models` that the code and its tests name.  Their
declarations are not among the sources, so their values are parameters. -/
structure Models where
  AuthenticationMethodNone : String
  AuthenticationMethodGoogleCloudRun : String
  deriving DecidableEq, Repr

/-! ## The world: heap, call log and environment -/

/-- One recorded invocation of an acquisition function, with its arguments. -/
inductive Call where
  | credentialsFunc (ctx : Context) (jsonKey : List UInt8) (scopes : List String) : Call
  | tokenSourceFunc (ctx : Context) (audience : String) (opts : List ClientOption) : Call
  deriving DecidableEq, Repr

/-- The state a call runs in. -/
structure World (σ : Type) where
  clients : List Client
  transports : List OAuth2Transport
  calls : List Call
  env : σ
  deriving DecidableEq, Repr

/-- The code of a non-nil func value of the type of the parameter `credentialsFunc`. -/
abbrev CredentialsBody (σ : Type) :=
  Context → List UInt8 → List String → σ → (Option Credentials × Option GoError) × σ

/-- The code of a non-nil func value of the type of the parameter `tokenSourceFunc`. -/
abbrev TokenSourceBody (σ : Type) :=
  Context → String → List ClientOption → σ → (TokenSource × Option GoError) × σ

/-- The type of the parameter `credentialsFunc`: `none` is the nil func value. -/
abbrev CredentialsFunc (σ : Type) :=
  Option (CredentialsBody σ)

/-- The type of the parameter `tokenSourceFunc`: `none` is the nil func value. -/
abbrev TokenSourceFunc (σ : Type) :=
  Option (TokenSourceBody σ)

/-- A Go run-time panic. -/
inductive Panic where
  | nilPointerDereference : Panic
  deriving DecidableEq, Repr

/-- How a Go call ends: it returns its results or it panics. -/
inductive Outcome (α : Type) where
  | returned (v : α) : Outcome α
  | panicked (p : Panic) : Outcome α
  deriving DecidableEq, Repr

/-- Reading the struct behind a `*http.Client`. -/
def World.client {σ : Type} (w : World σ) : Option Nat → Option Client
  | none => none
  | some a => w.clients[a]?

/-- Reading the struct behind a `*oauth2.Transport`. -/
def World.transport {σ : Type} (w : World σ) (a : Nat) : Option OAuth2Transport :=
  w.transports[a]?

/-- The allocation `&oauth2.Transport{...}`: the new address and the new world. -/
def World.newTransport {σ : Type} (w : World σ) (t : OAuth2Transport) : Nat × World σ :=
  (w.transports.length, { w with transports := w.transports ++ [t] })

/-- The allocation `&http.Client{...}`: the new address and the new world. -/
def World.newClient {σ : Type} (w : World σ) (c : Client) : Nat × World σ :=
  (w.clients.length, { w with clients := w.clients ++ [c] })

/-- Invoking a non-nil `credentialsFunc`: the call is logged and the environment advanced. -/
def World.callCredentials {σ : Type} (w : World σ) (f : CredentialsBody σ)
    (ctx : Context) (jsonKey : List UInt8) (scopes : List String) :
    (Option Credentials × Option GoError) × World σ :=
  ((f ctx jsonKey scopes w.env).1,
    { w with calls := w.calls ++ [Call.credentialsFunc ctx jsonKey scopes],
             env := (f ctx jsonKey scopes w.env).2 })

/-- Invoking a non-nil `tokenSourceFunc`: the call is logged and the environment advanced. -/
def World.callTokenSource {σ : Type} (w : World σ) (f : TokenSourceBody σ)
    (ctx : Context) (audience : String) (opts : List ClientOption) :
    (TokenSource × Option GoError) × World σ :=
  ((f ctx audience opts w.env).1,
    { w with calls := w.calls ++ [Call.tokenSourceFunc ctx audience opts],
             env := (f ctx audience opts w.env).2 })

/-! ## The functions of `google_cloud.go` -/

/-- The function `IsGoogleCloudRunAuthConfigured`. -/
def IsGoogleCloudRunAuthConfigured (models : Models) (settings : InfinitySettings) : Bool :=
  settings.AuthenticationMethod == models.AuthenticationMethodGoogleCloudRun

/-- The end of `ApplyGoogleCloudRunAuth`, from the test `if err != nil` of the outer
`err` to the `return` of the new client. -/
def wrapTransport {σ : Type} (httpClient : Option Nat) (tokenSource : TokenSource)
    (err : Option GoError) (w : World σ) :
    Outcome (Option Nat × Option GoError) × World σ :=
  if err != none then
    (.returned (none, some (fmt.ErrorfV "error creating token source: " err)), w)
  else
    match w.client httpClient with
    | none => (.panicked .nilPointerDereference, w)
    | some c =>
      let (t, w1) := w.newTransport { Base := c.Transport, Source := tokenSource }
      let (p, w2) := w1.newClient
        { Transport := .oauth2Transport t, CheckRedirect := none, Jar := none, Timeout := 0 }
      (.returned (some p, none), w2)

/-- The function `ApplyGoogleCloudRunAuth`.  The result is the returned pair
`(*http.Client, error)`, or a panic, together with the world after the call.  In the
branch with a service-account key the `err` of `creds, err := ...` is a new variable of
the inner block, so the outer `err` is still nil when the branch is left.  Calling a
nil `credentialsFunc` or `tokenSourceFunc` panics before anything else happens. -/
def ApplyGoogleCloudRunAuth {σ : Type} (models : Models) (ctx : Context)
    (httpClient : Option Nat) (settings : InfinitySettings)
    (credentialsFunc : CredentialsFunc σ) (tokenSourceFunc : TokenSourceFunc σ)
    (w : World σ) : Outcome (Option Nat × Option GoError) × World σ :=
  if IsGoogleCloudRunAuthConfigured models settings then
    let audience := settings.GoogleCloudRunAudience
    if audience == "" then
      (.returned (none, some (fmt.Errorf "Google Cloud Run audience is required")), w)
    else if settings.GoogleCloudRunServiceAccountKey != "" then
      match credentialsFunc with
      | none => (.panicked .nilPointerDereference, w)
      | some f =>
        match w.callCredentials f ctx
            (bytes settings.GoogleCloudRunServiceAccountKey) [audience] with
        | ((creds, err), w1) =>
          if err != none then
            (.returned
              (none, some (fmt.ErrorfV "error creating credentials from JSON: " err)), w1)
          else
            match creds with
            | none => (.panicked .nilPointerDereference, w1)
            | some c => wrapTransport httpClient c.TokenSource none w1
    else
      match tokenSourceFunc with
      | none => (.panicked .nilPointerDereference, w)
      | some g =>
        match w.callTokenSource g ctx audience [] with
        | ((tokenSource, err), w1) => wrapTransport httpClient tokenSource err w1
  else
    (.returned (httpClient, none), w)

/-! ## Sample inputs, after the package's tests -/

/-- Sample values of the two constants of package `models`. -/
def sampleModels : Models :=
  { AuthenticationMethodNone := "none", AuthenticationMethodGoogleCloudRun := "googleCloudRun" }

/-- A record with another method selected; audience and key are filled in all the same. -/
def settingsNone : InfinitySettings :=
  { AuthenticationMethod := "none", GoogleCloudRunAudience := "https://your-cloud-run-service-url",
    GoogleCloudRunServiceAccountKey := "test-service-account-key", Other := [("url", "x")] }

/-- A record with the Google Cloud Run method and no audience. -/
def settingsNoAudience : InfinitySettings :=
  { AuthenticationMethod := "googleCloudRun", GoogleCloudRunAudience := "",
    GoogleCloudRunServiceAccountKey := "test-service-account-key", Other := [] }

/-- A record with the Google Cloud Run method, an audience and no key. -/
def settingsAmbient : InfinitySettings :=
  { AuthenticationMethod := "googleCloudRun",
    GoogleCloudRunAudience := "https://your-cloud-run-service-url",
    GoogleCloudRunServiceAccountKey := "", Other := [] }

/-- A record with the Google Cloud Run method, an audience and a key. -/
def settingsKey : InfinitySettings :=
  { AuthenticationMethod := "googleCloudRun",
    GoogleCloudRunAudience := "https://your-cloud-run-service-url",
    GoogleCloudRunServiceAccountKey := "test-service-account-key", Other := [] }

/-- A credentials function that succeeds; the environment counts the invocations. -/
def mockCredentialsBody : CredentialsBody Nat :=
  fun _ _ _ n => ((some { TokenSource := some ⟨1⟩ }, none), n + 1)

/-- The func value of `mockCredentialsBody`. -/
def mockCredentialsFunc : CredentialsFunc Nat :=
  some mockCredentialsBody

/-- A token-source function that succeeds; the environment counts the invocations. -/
def mockTokenSourceBody : TokenSourceBody Nat :=
  fun _ _ _ n => ((some ⟨2⟩, none), n + 1)

/-- The func value of `mockTokenSourceBody`. -/
def mockTokenSourceFunc : TokenSourceFunc Nat :=
  some mockTokenSourceBody

/-- A credentials function that fails. -/
def failingCredentialsBody : CredentialsBody Nat :=
  fun _ _ _ n => ((none, some ⟨"invalid character"⟩), n + 1)

/-- A token-source function that fails. -/
def failingTokenSourceBody : TokenSourceBody Nat :=
  fun _ _ _ n => ((none, some ⟨"could not find default credentials"⟩), n + 1)

/-- A credentials function that returns nil credentials and a nil error. -/
def nilCredentialsBody : CredentialsBody Nat :=
  fun _ _ _ n => ((none, none), n + 1)

/-- A world with one client, at address 0, whose four fields are all set. -/
def sampleWorld : World Nat :=
  { clients := [{ Transport := .other 7, CheckRedirect := some 1, Jar := some 2, Timeout := 30 }],
    transports := [], calls := [], env := 0 }

/-- A world whose only client, at address 0, has a nil Transport. -/
def bareWorld : World Nat :=
  { clients := [{ Transport := .nil, CheckRedirect := none, Jar := none, Timeout := 0 }],
    transports := [], calls := [], env := 0 }

/-- The world `bareWorld` after a successful call without a key. -/
def bareWorldAfter : World Nat :=
  { clients := [{ Transport := .nil, CheckRedirect := none, Jar := none, Timeout := 0 },
                { Transport := .oauth2Transport 0, CheckRedirect := none, Jar := none,
                  Timeout := 0 }],
    transports := [{ Source := some ⟨2⟩, Base := .nil }],
    calls := [Call.tokenSourceFunc 0 "https://your-cloud-run-service-url" []],
    env := 1 }

/-- The world `sampleWorld` after a successful call with a key. -/
def sampleWorldAfter : World Nat :=
  { clients := [{ Transport := .other 7, CheckRedirect := some 1, Jar := some 2, Timeout := 30 },
                { Transport := .oauth2Transport 0, CheckRedirect := none, Jar := none,
                  Timeout := 0 }],
    transports := [{ Source := some ⟨1⟩, Base := .other 7 }],
    calls := [Call.credentialsFunc 0 (bytes "test-service-account-key")
      ["https://your-cloud-run-service-url"]],
    env := 1 }

/-- The world `sampleWorld` with other values of the client's Timeout, CheckRedirect and
Jar, and the same Transport. -/
def otherWorld : World Nat :=
  { clients := [{ Transport := .other 7, CheckRedirect := none, Jar := some 5, Timeout := 9 }],
    transports := [], calls := [], env := 0 }

/-! ## The paths of `ApplyGoogleCloudRunAuth` -/

/-- The end of the function with a nil outer `err` and a readable client: a transport
and a client are allocated and the new client is returned. -/
theorem wrapTransport_ok {σ : Type} (httpClient : Option Nat) (tokenSource : TokenSource)
    (w : World σ) (client : Client) (h : w.client httpClient = some client) :
    wrapTransport httpClient tokenSource none w
      = (.returned (some w.clients.length, none),
          { w with
            clients := w.clients ++ [{ Transport := .oauth2Transport w.transports.length,
                                       CheckRedirect := none, Jar := none, Timeout := 0 }],
            transports := w.transports ++
              [{ Source := tokenSource, Base := client.Transport }] }) := by
  simp [wrapTransport, h, World.newTransport, World.newClient]

/-- The end of the function with a nil outer `err` and a client that cannot be read. -/
theorem wrapTransport_nil {σ : Type} (httpClient : Option Nat) (tokenSource : TokenSource)
    (w : World σ) (h : w.client httpClient = none) :
    wrapTransport httpClient tokenSource none w = (.panicked .nilPointerDereference, w) := by
  simp [wrapTransport, h]

/-- The end of the function with a non-nil outer `err`. -/
theorem wrapTransport_err {σ : Type} (httpClient : Option Nat) (tokenSource : TokenSource)
    (w : World σ) (e : GoError) :
    wrapTransport httpClient tokenSource (some e) w
      = (.returned (none, some ⟨"error creating token source: " ++ e.msg⟩), w) := by
  simp [wrapTransport, fmt.ErrorfV, fmt.verbV]

/-- The end of the function invokes nothing. -/
theorem wrapTransport_calls {σ : Type} (httpClient : Option Nat) (tokenSource : TokenSource)
    (err : Option GoError) (w : World σ) :
    (wrapTransport httpClient tokenSource err w).2.calls = w.calls ∧
    (wrapTransport httpClient tokenSource err w).2.env = w.env := by
  cases err with
  | some e => simp [wrapTransport_err]
  | none =>
    cases h : w.client httpClient with
    | none => simp [wrapTransport_nil _ _ _ h]
    | some c => simp [wrapTransport_ok _ _ _ c h]

/-- The path with the method selected and an empty audience. -/
theorem apply_no_audience_eq {σ : Type} (models : Models) (ctx : Context)
    (httpClient : Option Nat) (settings : InfinitySettings)
    (credentialsFunc : CredentialsFunc σ) (tokenSourceFunc : TokenSourceFunc σ) (w : World σ)
    (hsel : settings.AuthenticationMethod = models.AuthenticationMethodGoogleCloudRun)
    (haud : settings.GoogleCloudRunAudience = "") :
    ApplyGoogleCloudRunAuth models ctx httpClient settings credentialsFunc tokenSourceFunc w
      = (.returned (none, some ⟨"Google Cloud Run audience is required"⟩), w) := by
  simp [ApplyGoogleCloudRunAuth, IsGoogleCloudRunAuthConfigured, hsel, haud, fmt.Errorf]

/-- The path with another method selected. -/
theorem apply_not_selected_eq {σ : Type} (models : Models) (ctx : Context)
    (httpClient : Option Nat) (settings : InfinitySettings)
    (credentialsFunc : CredentialsFunc σ) (tokenSourceFunc : TokenSourceFunc σ) (w : World σ)
    (h : settings.AuthenticationMethod ≠ models.AuthenticationMethodGoogleCloudRun) :
    ApplyGoogleCloudRunAuth models ctx httpClient settings credentialsFunc tokenSourceFunc w
      = (.returned (httpClient, none), w) := by
  simp [ApplyGoogleCloudRunAuth, IsGoogleCloudRunAuthConfigured, h]

/-- The path with a service-account key and a nil `credentialsFunc`. -/
theorem apply_key_nil_eq {σ : Type} (models : Models) (ctx : Context)
    (httpClient : Option Nat) (settings : InfinitySettings)
    (tokenSourceFunc : TokenSourceFunc σ) (w : World σ)
    (hsel : settings.AuthenticationMethod = models.AuthenticationMethodGoogleCloudRun)
    (haud : settings.GoogleCloudRunAudience ≠ "")
    (hkey : settings.GoogleCloudRunServiceAccountKey ≠ "") :
    ApplyGoogleCloudRunAuth models ctx httpClient settings none tokenSourceFunc w
      = (.panicked .nilPointerDereference, w) := by
  simp [ApplyGoogleCloudRunAuth, IsGoogleCloudRunAuthConfigured, hsel, haud, hkey]

/-- The path with a service-account key and a non-nil `credentialsFunc`, by the result of
that function. -/
theorem apply_key_eq {σ : Type} (models : Models) (ctx : Context)
    (httpClient : Option Nat) (settings : InfinitySettings)
    (f : CredentialsBody σ) (tokenSourceFunc : TokenSourceFunc σ) (w : World σ)
    (hsel : settings.AuthenticationMethod = models.AuthenticationMethodGoogleCloudRun)
    (haud : settings.GoogleCloudRunAudience ≠ "")
    (hkey : settings.GoogleCloudRunServiceAccountKey ≠ "") :
    ApplyGoogleCloudRunAuth models ctx httpClient settings (some f) tokenSourceFunc w
      = match (f ctx (bytes settings.GoogleCloudRunServiceAccountKey)
          [settings.GoogleCloudRunAudience] w.env).1 with
        | (_, some e) =>
          (.returned (none, some ⟨"error creating credentials from JSON: " ++ e.msg⟩),
            (w.callCredentials f ctx
              (bytes settings.GoogleCloudRunServiceAccountKey)
              [settings.GoogleCloudRunAudience]).2)
        | (none, none) =>
          (.panicked .nilPointerDereference,
            (w.callCredentials f ctx
              (bytes settings.GoogleCloudRunServiceAccountKey)
              [settings.GoogleCloudRunAudience]).2)
        | (some c, none) =>
          wrapTransport httpClient c.TokenSource none
            (w.callCredentials f ctx
              (bytes settings.GoogleCloudRunServiceAccountKey)
              [settings.GoogleCloudRunAudience]).2 := by
  simp only [ApplyGoogleCloudRunAuth, IsGoogleCloudRunAuthConfigured, hsel, beq_self_eq_true,
    if_true, beq_iff_eq, haud, if_false, bne_iff_ne, ne_eq, hkey, not_false_eq_true]
  rcases hcf : f ctx (bytes settings.GoogleCloudRunServiceAccountKey)
      [settings.GoogleCloudRunAudience] w.env with ⟨⟨creds, err⟩, env1⟩
  cases err with
  | some e => simp [World.callCredentials, hcf, fmt.ErrorfV, fmt.verbV]
  | none =>
    cases creds with
    | none => simp [World.callCredentials, hcf]
    | some c => simp [World.callCredentials, hcf]

/-- The path without a service-account key and with a nil `tokenSourceFunc`. -/
theorem apply_ambient_nil_eq {σ : Type} (models : Models) (ctx : Context)
    (httpClient : Option Nat) (settings : InfinitySettings)
    (credentialsFunc : CredentialsFunc σ) (w : World σ)
    (hsel : settings.AuthenticationMethod = models.AuthenticationMethodGoogleCloudRun)
    (haud : settings.GoogleCloudRunAudience ≠ "")
    (hkey : settings.GoogleCloudRunServiceAccountKey = "") :
    ApplyGoogleCloudRunAuth models ctx httpClient settings credentialsFunc none w
      = (.panicked .nilPointerDereference, w) := by
  simp [ApplyGoogleCloudRunAuth, IsGoogleCloudRunAuthConfigured, hsel, haud, hkey]

/-- The path without a service-account key and with a non-nil `tokenSourceFunc`. -/
theorem apply_ambient_eq {σ : Type} (models : Models) (ctx : Context)
    (httpClient : Option Nat) (settings : InfinitySettings)
    (credentialsFunc : CredentialsFunc σ) (g : TokenSourceBody σ) (w : World σ)
    (hsel : settings.AuthenticationMethod = models.AuthenticationMethodGoogleCloudRun)
    (haud : settings.GoogleCloudRunAudience ≠ "")
    (hkey : settings.GoogleCloudRunServiceAccountKey = "") :
    ApplyGoogleCloudRunAuth models ctx httpClient settings credentialsFunc (some g) w
      = wrapTransport httpClient
          (g ctx settings.GoogleCloudRunAudience [] w.env).1.1
          (g ctx settings.GoogleCloudRunAudience [] w.env).1.2
          (w.callTokenSource g ctx settings.GoogleCloudRunAudience []).2 := by
  simp [ApplyGoogleCloudRunAuth, IsGoogleCloudRunAuthConfigured, hsel, haud, hkey,
    World.callTokenSource]

/-- Invoking `credentialsFunc` leaves the heap of clients as it is. -/
theorem client_callCredentials {σ : Type} (w : World σ) (f : CredentialsBody σ)
    (ctx : Context) (jsonKey : List UInt8) (scopes : List String) (p : Option Nat) :
    (w.callCredentials f ctx jsonKey scopes).2.client p = w.client p := by
  cases p <;> simp [World.client, World.callCredentials]

/-- Invoking `tokenSourceFunc` leaves the heap of clients as it is. -/
theorem client_callTokenSource {σ : Type} (w : World σ) (f : TokenSourceBody σ)
    (ctx : Context) (audience : String) (opts : List ClientOption) (p : Option Nat) :
    (w.callTokenSource f ctx audience opts).2.client p = w.client p := by
  cases p <;> simp [World.client, World.callTokenSource]

/-- A successful call with the method selected: the input client can be read, and the
world after the call is the world after the one acquisition, extended by one transport
and one client. -/
theorem apply_selected_success {σ : Type} (models : Models) (ctx : Context)
    (httpClient : Option Nat) (settings : InfinitySettings)
    (credentialsFunc : CredentialsFunc σ) (tokenSourceFunc : TokenSourceFunc σ) (w : World σ)
    (hsel : settings.AuthenticationMethod = models.AuthenticationMethodGoogleCloudRun)
    (r : Option Nat) (w' : World σ)
    (hok : ApplyGoogleCloudRunAuth models ctx httpClient settings credentialsFunc
      tokenSourceFunc w = (.returned (r, none), w')) :
    ∃ (client : Client) (tokenSource : TokenSource),
      w.client httpClient = some client ∧
      r = some w.clients.length ∧
      w'.clients = w.clients ++ [{ Transport := .oauth2Transport w.transports.length,
                                   CheckRedirect := none, Jar := none, Timeout := 0 }] ∧
      w'.transports = w.transports ++
        [{ Source := tokenSource, Base := client.Transport }] := by
  by_cases haud : settings.GoogleCloudRunAudience = ""
  · rw [apply_no_audience_eq models ctx httpClient settings credentialsFunc
      tokenSourceFunc w hsel haud] at hok
    simp at hok
  · by_cases hkey : settings.GoogleCloudRunServiceAccountKey = ""
    · cases tokenSourceFunc with
      | none =>
        rw [apply_ambient_nil_eq models ctx httpClient settings credentialsFunc w
          hsel haud hkey] at hok
        simp at hok
      | some g =>
        rw [apply_ambient_eq models ctx httpClient settings credentialsFunc g w
          hsel haud hkey] at hok
        cases herr : (g ctx settings.GoogleCloudRunAudience [] w.env).1.2 with
        | some e => rw [herr, wrapTransport_err] at hok; simp at hok
        | none =>
          rw [herr] at hok
          cases hc : w.client httpClient with
          | none =>
            rw [← client_callTokenSource w g ctx settings.GoogleCloudRunAudience []] at hc
            rw [wrapTransport_nil _ _ _ hc] at hok
            simp at hok
          | some client =>
            rw [← client_callTokenSource w g ctx settings.GoogleCloudRunAudience []] at hc
            rw [wrapTransport_ok _ _ _ client hc] at hok
            simp only [Prod.mk.injEq, Outcome.returned.injEq, and_true] at hok
            obtain ⟨hr, rfl⟩ := hok
            exact ⟨client, (g ctx settings.GoogleCloudRunAudience [] w.env).1.1,
              rfl, by simpa [World.callTokenSource] using hr.symm,
              by simp [World.callTokenSource], by simp [World.callTokenSource]⟩
    · cases credentialsFunc with
      | none =>
        rw [apply_key_nil_eq models ctx httpClient settings tokenSourceFunc w
          hsel haud hkey] at hok
        simp at hok
      | some f =>
        rw [apply_key_eq models ctx httpClient settings f tokenSourceFunc w
          hsel haud hkey] at hok
        rcases hcf : f ctx (bytes settings.GoogleCloudRunServiceAccountKey)
          [settings.GoogleCloudRunAudience] w.env with ⟨⟨creds, err⟩, env1⟩
        rw [hcf] at hok
        cases err with
        | some e => cases creds <;> simp at hok
        | none =>
          cases creds with
          | none => simp at hok
          | some c =>
            simp only at hok
            cases hc : w.client httpClient with
            | none =>
              rw [← client_callCredentials w f ctx
                (bytes settings.GoogleCloudRunServiceAccountKey)
                [settings.GoogleCloudRunAudience]] at hc
              rw [wrapTransport_nil _ _ _ hc] at hok
              simp at hok
            | some client =>
              rw [← client_callCredentials w f ctx
                (bytes settings.GoogleCloudRunServiceAccountKey)
                [settings.GoogleCloudRunAudience]] at hc
              rw [wrapTransport_ok _ _ _ client hc] at hok
              simp only [Prod.mk.injEq, Outcome.returned.injEq, and_true] at hok
              obtain ⟨hr, rfl⟩ := hok
              exact ⟨client, c.TokenSource, rfl,
                by simpa [World.callCredentials] using hr.symm,
                by simp [World.callCredentials], by simp [World.callCredentials]⟩

/-- With the method selected, a readable input client, a non-nil func value for the
acquisition function that the call invokes and a `credentialsFunc` that returns non-nil
credentials whenever it returns a nil error, the call returns, and exactly one of the
returned client and the returned error is non-nil. -/
theorem apply_selected_returns {σ : Type} (models : Models) (ctx : Context)
    (httpClient : Option Nat) (settings : InfinitySettings)
    (credentialsFunc : CredentialsFunc σ) (tokenSourceFunc : TokenSourceFunc σ) (w : World σ)
    (hsel : settings.AuthenticationMethod = models.AuthenticationMethodGoogleCloudRun)
    (client : Client) (hc : w.client httpClient = some client)
    (hcf : settings.GoogleCloudRunAudience ≠ "" →
      settings.GoogleCloudRunServiceAccountKey ≠ "" → credentialsFunc ≠ none)
    (htf : settings.GoogleCloudRunAudience ≠ "" →
      settings.GoogleCloudRunServiceAccountKey = "" → tokenSourceFunc ≠ none)
    (hcreds : ∀ f : CredentialsBody σ, credentialsFunc = some f →
      ∀ (c : Context) (jsonKey : List UInt8) (scopes : List String) (env : σ),
        (f c jsonKey scopes env).1.2 = none → (f c jsonKey scopes env).1.1 ≠ none) :
    ∃ (r : Option Nat) (e : Option GoError) (w' : World σ),
      ApplyGoogleCloudRunAuth models ctx httpClient settings credentialsFunc tokenSourceFunc w
        = (.returned (r, e), w') ∧
      ((r ≠ none ∧ e = none) ∨ (r = none ∧ e ≠ none)) := by
  by_cases haud : settings.GoogleCloudRunAudience = ""
  · exact ⟨none, _, w, apply_no_audience_eq models ctx httpClient settings credentialsFunc
      tokenSourceFunc w hsel haud, Or.inr ⟨rfl, by simp⟩⟩
  · by_cases hkey : settings.GoogleCloudRunServiceAccountKey = ""
    · cases tokenSourceFunc with
      | none => exact absurd rfl (htf haud hkey)
      | some g =>
        rw [apply_ambient_eq models ctx httpClient settings credentialsFunc g w
          hsel haud hkey]
        rw [← client_callTokenSource w g ctx settings.GoogleCloudRunAudience []] at hc
        cases (g ctx settings.GoogleCloudRunAudience [] w.env).1.2 with
        | some e => exact ⟨none, _, _, wrapTransport_err _ _ _ e, Or.inr ⟨rfl, by simp⟩⟩
        | none =>
          exact ⟨_, none, _, wrapTransport_ok _ _ _ client hc, Or.inl ⟨by simp, rfl⟩⟩
    · cases credentialsFunc with
      | none => exact absurd rfl (hcf haud hkey)
      | some f =>
        rw [apply_key_eq models ctx httpClient settings f tokenSourceFunc w hsel haud hkey]
        have hnn := hcreds f rfl ctx (bytes settings.GoogleCloudRunServiceAccountKey)
          [settings.GoogleCloudRunAudience] w.env
        rw [← client_callCredentials w f ctx
          (bytes settings.GoogleCloudRunServiceAccountKey)
          [settings.GoogleCloudRunAudience]] at hc
        rcases hres : (f ctx (bytes settings.GoogleCloudRunServiceAccountKey)
          [settings.GoogleCloudRunAudience] w.env).1 with ⟨creds, err⟩
        rw [hres] at hnn
        cases err with
        | some e =>
          cases creds with
          | none => exact ⟨none, some _, _, rfl, Or.inr ⟨rfl, by simp⟩⟩
          | some c => exact ⟨none, some _, _, rfl, Or.inr ⟨rfl, by simp⟩⟩
        | none =>
          cases creds with
          | none => exact absurd rfl (hnn rfl)
          | some c =>
            exact ⟨_, none, _, wrapTransport_ok _ _ _ client hc, Or.inl ⟨by simp, rfl⟩⟩

/-! ## The properties -/

/-- C1: when the settings' AuthenticationMethod is not the Google Cloud Run method,
ApplyGoogleCloudRunAuth returns exactly the input client and a nil error, for every input
client, audience, key and pair of acquisition functions; the world after the call is the
world before it, so neither credentialsFunc nor tokenSourceFunc was invoked. -/
theorem applyGoogleCloudRunAuth_not_selected {σ : Type} (models : Models) (ctx : Context)
    (httpClient : Option Nat) (settings : InfinitySettings)
    (credentialsFunc : CredentialsFunc σ) (tokenSourceFunc : TokenSourceFunc σ) (w : World σ)
    (h : settings.AuthenticationMethod ≠ models.AuthenticationMethodGoogleCloudRun) :
    ApplyGoogleCloudRunAuth models ctx httpClient settings credentialsFunc tokenSourceFunc w
      = (.returned (httpClient, none), w) :=
  apply_not_selected_eq models ctx httpClient settings credentialsFunc tokenSourceFunc w h

/-- Witness of C1: the settings `settingsNone` with the client at address 0. -/
theorem applyGoogleCloudRunAuth_not_selected_witness :
    settingsNone.AuthenticationMethod ≠ sampleModels.AuthenticationMethodGoogleCloudRun ∧
    ApplyGoogleCloudRunAuth sampleModels 0 (some 0) settingsNone
        mockCredentialsFunc mockTokenSourceFunc sampleWorld
      = (.returned (some 0, none), sampleWorld) :=
  ⟨by decide, applyGoogleCloudRunAuth_not_selected sampleModels 0 (some 0) settingsNone
    mockCredentialsFunc mockTokenSourceFunc sampleWorld (by decide)⟩

/-- C2: with the Google Cloud Run method selected and an empty audience,
ApplyGoogleCloudRunAuth returns a nil client and the error
"Google Cloud Run audience is required", whatever the key and the other fields are; the
world after the call is the world before it, so no acquisition function was invoked. -/
theorem applyGoogleCloudRunAuth_empty_audience {σ : Type} (models : Models) (ctx : Context)
    (httpClient : Option Nat) (settings : InfinitySettings)
    (credentialsFunc : CredentialsFunc σ) (tokenSourceFunc : TokenSourceFunc σ) (w : World σ)
    (hsel : settings.AuthenticationMethod = models.AuthenticationMethodGoogleCloudRun)
    (haud : settings.GoogleCloudRunAudience = "") :
    ApplyGoogleCloudRunAuth models ctx httpClient settings credentialsFunc tokenSourceFunc w
      = (.returned (none, some ⟨"Google Cloud Run audience is required"⟩), w) :=
  apply_no_audience_eq models ctx httpClient settings credentialsFunc tokenSourceFunc w
    hsel haud

/-- Witness of C2: the settings `settingsNoAudience`, which carry a key. -/
theorem applyGoogleCloudRunAuth_empty_audience_witness :
    settingsNoAudience.AuthenticationMethod = sampleModels.AuthenticationMethodGoogleCloudRun ∧
    settingsNoAudience.GoogleCloudRunAudience = "" ∧
    ApplyGoogleCloudRunAuth sampleModels 0 (some 0) settingsNoAudience
        mockCredentialsFunc mockTokenSourceFunc sampleWorld
      = (.returned (none, some ⟨"Google Cloud Run audience is required"⟩), sampleWorld) :=
  ⟨by decide, by decide, applyGoogleCloudRunAuth_empty_audience sampleModels 0 (some 0)
    settingsNoAudience mockCredentialsFunc mockTokenSourceFunc sampleWorld
    (by decide) (by decide)⟩

/-- C7: IsGoogleCloudRunAuthConfigured returns true if and only if the settings'
AuthenticationMethod equals AuthenticationMethodGoogleCloudRun, and two records that agree
on AuthenticationMethod give the same result, whatever their other fields are. -/
theorem isGoogleCloudRunAuthConfigured_iff (models : Models) (settings : InfinitySettings) :
    (IsGoogleCloudRunAuthConfigured models settings = true ↔
      settings.AuthenticationMethod = models.AuthenticationMethodGoogleCloudRun) ∧
    ∀ other : InfinitySettings, other.AuthenticationMethod = settings.AuthenticationMethod →
      IsGoogleCloudRunAuthConfigured models other
        = IsGoogleCloudRunAuthConfigured models settings := by
  refine ⟨by simp [IsGoogleCloudRunAuthConfigured], ?_⟩
  intro other h
  simp [IsGoogleCloudRunAuthConfigured, h]

/-- Witness of C7: `settingsKey` and `settingsNoAudience` agree on the method only. -/
theorem isGoogleCloudRunAuthConfigured_iff_witness :
    settingsNoAudience.AuthenticationMethod = settingsKey.AuthenticationMethod ∧
    settingsNoAudience ≠ settingsKey ∧
    IsGoogleCloudRunAuthConfigured sampleModels settingsNoAudience
      = IsGoogleCloudRunAuthConfigured sampleModels settingsKey :=
  ⟨by decide, by decide,
    (isGoogleCloudRunAuthConfigured_iff sampleModels settingsKey).2 settingsNoAudience
      (by decide)⟩

/-- C3, as it stands, fails: with the method selected, an audience, a key and a
credentialsFunc that returns a nil error, the call panics instead of returning a client
when the input client is nil, and also when the credentials returned are nil. -/
theorem with_key_nil_client_or_nil_credentials_panics :
    settingsKey.AuthenticationMethod = sampleModels.AuthenticationMethodGoogleCloudRun ∧
    settingsKey.GoogleCloudRunAudience ≠ "" ∧
    settingsKey.GoogleCloudRunServiceAccountKey ≠ "" ∧
    (mockCredentialsBody 0 (bytes settingsKey.GoogleCloudRunServiceAccountKey)
      [settingsKey.GoogleCloudRunAudience] sampleWorld.env).1
      = (some { TokenSource := some ⟨1⟩ }, none) ∧
    (ApplyGoogleCloudRunAuth sampleModels 0 none settingsKey
      mockCredentialsFunc mockTokenSourceFunc sampleWorld).1
      = .panicked .nilPointerDereference ∧
    (nilCredentialsBody 0 (bytes settingsKey.GoogleCloudRunServiceAccountKey)
      [settingsKey.GoogleCloudRunAudience] sampleWorld.env).1 = (none, none) ∧
    (ApplyGoogleCloudRunAuth sampleModels 0 (some 0) settingsKey
      (some nilCredentialsBody) mockTokenSourceFunc sampleWorld).1
      = .panicked .nilPointerDereference := by
  decide

/-- C3, amended: with the method selected, a non-empty audience and a non-empty key, the
call invokes credentialsFunc (a function, that is a non-nil func value) exactly once, with the bytes of that key and the audience as
its single trailing argument, and never invokes tokenSourceFunc (the call log grows by
that one entry and the environment is advanced once); when credentialsFunc returns non-nil
credentials with a nil error and the input client is non-nil, the result is a client with
no error whose Transport is an oauth2.Transport whose Source is the TokenSource of the
returned credentials. -/
theorem applyGoogleCloudRunAuth_with_key {σ : Type} (models : Models) (ctx : Context)
    (httpClient : Option Nat) (settings : InfinitySettings)
    (credentialsFunc : CredentialsBody σ) (tokenSourceFunc : TokenSourceFunc σ) (w : World σ)
    (hsel : settings.AuthenticationMethod = models.AuthenticationMethodGoogleCloudRun)
    (haud : settings.GoogleCloudRunAudience ≠ "")
    (hkey : settings.GoogleCloudRunServiceAccountKey ≠ "") :
    ∃ (out : Outcome (Option Nat × Option GoError)) (w' : World σ),
      ApplyGoogleCloudRunAuth models ctx httpClient settings (some credentialsFunc)
        tokenSourceFunc w = (out, w') ∧
      w'.calls = w.calls ++ [Call.credentialsFunc ctx
        (bytes settings.GoogleCloudRunServiceAccountKey) [settings.GoogleCloudRunAudience]] ∧
      w'.env = (credentialsFunc ctx (bytes settings.GoogleCloudRunServiceAccountKey)
        [settings.GoogleCloudRunAudience] w.env).2 ∧
      ∀ (creds : Credentials) (client : Client),
        (credentialsFunc ctx (bytes settings.GoogleCloudRunServiceAccountKey)
          [settings.GoogleCloudRunAudience] w.env).1 = (some creds, none) →
        w.client httpClient = some client →
        ∃ p t : Nat, out = .returned (some p, none) ∧
          (w'.client (some p)).map Client.Transport = some (.oauth2Transport t) ∧
          w'.transport t = some { Source := creds.TokenSource, Base := client.Transport } := by
  rcases h : ApplyGoogleCloudRunAuth models ctx httpClient settings (some credentialsFunc)
    tokenSourceFunc w with ⟨out, w'⟩
  rw [apply_key_eq models ctx httpClient settings credentialsFunc tokenSourceFunc w
    hsel haud hkey] at h
  refine ⟨out, w', rfl, ?_⟩
  rcases hcf : credentialsFunc ctx (bytes settings.GoogleCloudRunServiceAccountKey)
    [settings.GoogleCloudRunAudience] w.env with ⟨⟨creds, err⟩, env1⟩
  rw [hcf] at h
  cases err with
  | some e =>
    simp only [Prod.mk.injEq] at h
    obtain ⟨-, rfl⟩ := h
    simp [World.callCredentials, hcf]
  | none =>
    cases creds with
    | none =>
      simp only [Prod.mk.injEq] at h
      obtain ⟨-, rfl⟩ := h
      simp [World.callCredentials, hcf]
    | some c =>
      simp only at h
      have hcalls := wrapTransport_calls httpClient c.TokenSource none
        (w.callCredentials credentialsFunc ctx (bytes settings.GoogleCloudRunServiceAccountKey)
          [settings.GoogleCloudRunAudience]).2
      rw [h] at hcalls
      refine ⟨by simpa [World.callCredentials] using hcalls.1,
        by simpa [World.callCredentials, hcf] using hcalls.2, ?_⟩
      intro creds client hcreds hc
      simp only [Prod.mk.injEq, Option.some.injEq, and_true] at hcreds
      subst hcreds
      rw [← client_callCredentials w credentialsFunc ctx
        (bytes settings.GoogleCloudRunServiceAccountKey) [settings.GoogleCloudRunAudience]] at hc
      rw [wrapTransport_ok _ _ _ client hc] at h
      simp only [Prod.mk.injEq] at h
      obtain ⟨rfl, rfl⟩ := h
      refine ⟨w.clients.length, w.transports.length, ?_, ?_, ?_⟩
      · simp [World.callCredentials]
      · simp [World.callCredentials, World.client]
      · simp [World.callCredentials, World.transport]

/-- Witness of C3 amended: the settings `settingsKey` with the client at address 0 and a
credentialsFunc that returns credentials; every hypothesis holds there. -/
theorem applyGoogleCloudRunAuth_with_key_witness :
    settingsKey.AuthenticationMethod = sampleModels.AuthenticationMethodGoogleCloudRun ∧
    settingsKey.GoogleCloudRunAudience ≠ "" ∧
    settingsKey.GoogleCloudRunServiceAccountKey ≠ "" ∧
    (mockCredentialsBody 0 (bytes settingsKey.GoogleCloudRunServiceAccountKey)
      [settingsKey.GoogleCloudRunAudience] sampleWorld.env).1
      = (some { TokenSource := some ⟨1⟩ }, none) ∧
    sampleWorld.client (some 0)
      = some { Transport := .other 7, CheckRedirect := some 1, Jar := some 2, Timeout := 30 } ∧
    ∃ (out : Outcome (Option Nat × Option GoError)) (w' : World Nat),
      ApplyGoogleCloudRunAuth sampleModels 0 (some 0) settingsKey
        (some mockCredentialsBody) mockTokenSourceFunc sampleWorld = (out, w') ∧
      w'.calls = sampleWorld.calls ++ [Call.credentialsFunc 0
        (bytes settingsKey.GoogleCloudRunServiceAccountKey)
        [settingsKey.GoogleCloudRunAudience]] ∧
      w'.env = (mockCredentialsBody 0 (bytes settingsKey.GoogleCloudRunServiceAccountKey)
        [settingsKey.GoogleCloudRunAudience] sampleWorld.env).2 ∧
      ∃ p t : Nat, out = .returned (some p, none) ∧
        (w'.client (some p)).map Client.Transport = some (.oauth2Transport t) ∧
        w'.transport t = some { Source := some ⟨1⟩, Base := .other 7 } := by
  obtain ⟨out, w', h1, h2, h3, h4⟩ :=
    applyGoogleCloudRunAuth_with_key sampleModels 0 (some 0) settingsKey
      mockCredentialsBody mockTokenSourceFunc sampleWorld (by decide) (by decide) (by decide)
  exact ⟨by decide, by decide, by decide, by decide, by decide, out, w', h1, h2, h3,
    h4 { TokenSource := some ⟨1⟩ }
      { Transport := .other 7, CheckRedirect := some 1, Jar := some 2, Timeout := 30 }
      (by decide) (by decide)⟩

/-- C4, as it stands, fails: with the method selected, an audience, no key and a
tokenSourceFunc that returns a nil error, the call panics instead of returning a client
when the input client is nil. -/
theorem without_key_nil_client_panics :
    settingsAmbient.AuthenticationMethod = sampleModels.AuthenticationMethodGoogleCloudRun ∧
    settingsAmbient.GoogleCloudRunAudience ≠ "" ∧
    settingsAmbient.GoogleCloudRunServiceAccountKey = "" ∧
    (mockTokenSourceBody 0 settingsAmbient.GoogleCloudRunAudience [] sampleWorld.env).1
      = (some ⟨2⟩, none) ∧
    (ApplyGoogleCloudRunAuth sampleModels 0 none settingsAmbient
      mockCredentialsFunc mockTokenSourceFunc sampleWorld).1
      = .panicked .nilPointerDereference := by
  decide

/-- C4, amended: with the method selected, a non-empty audience and an empty key, the call
invokes tokenSourceFunc (a function, that is a non-nil func value) exactly once, with the
audience and no client options, and never invokes credentialsFunc (the call log grows by that one entry and the environment is
advanced once); when tokenSourceFunc returns a nil error and the input client is non-nil,
the result is a client with no error whose Transport is an oauth2.Transport whose Source is
the token source that tokenSourceFunc returned. -/
theorem applyGoogleCloudRunAuth_without_key {σ : Type} (models : Models) (ctx : Context)
    (httpClient : Option Nat) (settings : InfinitySettings)
    (credentialsFunc : CredentialsFunc σ) (tokenSourceFunc : TokenSourceBody σ) (w : World σ)
    (hsel : settings.AuthenticationMethod = models.AuthenticationMethodGoogleCloudRun)
    (haud : settings.GoogleCloudRunAudience ≠ "")
    (hkey : settings.GoogleCloudRunServiceAccountKey = "") :
    ∃ (out : Outcome (Option Nat × Option GoError)) (w' : World σ),
      ApplyGoogleCloudRunAuth models ctx httpClient settings credentialsFunc
        (some tokenSourceFunc) w = (out, w') ∧
      w'.calls = w.calls ++
        [Call.tokenSourceFunc ctx settings.GoogleCloudRunAudience []] ∧
      w'.env = (tokenSourceFunc ctx settings.GoogleCloudRunAudience [] w.env).2 ∧
      ∀ (tokenSource : TokenSource) (client : Client),
        (tokenSourceFunc ctx settings.GoogleCloudRunAudience [] w.env).1
          = (tokenSource, none) →
        w.client httpClient = some client →
        ∃ p t : Nat, out = .returned (some p, none) ∧
          (w'.client (some p)).map Client.Transport = some (.oauth2Transport t) ∧
          w'.transport t = some { Source := tokenSource, Base := client.Transport } := by
  rcases h : ApplyGoogleCloudRunAuth models ctx httpClient settings credentialsFunc
    (some tokenSourceFunc) w with ⟨out, w'⟩
  rw [apply_ambient_eq models ctx httpClient settings credentialsFunc tokenSourceFunc w
    hsel haud hkey] at h
  refine ⟨out, w', rfl, ?_⟩
  have hcalls := wrapTransport_calls httpClient
    (tokenSourceFunc ctx settings.GoogleCloudRunAudience [] w.env).1.1
    (tokenSourceFunc ctx settings.GoogleCloudRunAudience [] w.env).1.2
    (w.callTokenSource tokenSourceFunc ctx settings.GoogleCloudRunAudience []).2
  rw [h] at hcalls
  refine ⟨by simpa [World.callTokenSource] using hcalls.1,
    by simpa [World.callTokenSource] using hcalls.2, ?_⟩
  intro tokenSource client hts hc
  rw [hts] at h
  rw [← client_callTokenSource w tokenSourceFunc ctx settings.GoogleCloudRunAudience []] at hc
  rw [wrapTransport_ok _ _ _ client hc] at h
  simp only [Prod.mk.injEq] at h
  obtain ⟨rfl, rfl⟩ := h
  refine ⟨w.clients.length, w.transports.length, ?_, ?_, ?_⟩
  · simp [World.callTokenSource]
  · simp [World.callTokenSource, World.client]
  · simp [World.callTokenSource, World.transport]

/-- Witness of C4 amended: the settings `settingsAmbient` with the client at address 0
and a tokenSourceFunc that returns a token source; every hypothesis holds there. -/
theorem applyGoogleCloudRunAuth_without_key_witness :
    settingsAmbient.AuthenticationMethod = sampleModels.AuthenticationMethodGoogleCloudRun ∧
    settingsAmbient.GoogleCloudRunAudience ≠ "" ∧
    settingsAmbient.GoogleCloudRunServiceAccountKey = "" ∧
    (mockTokenSourceBody 0 settingsAmbient.GoogleCloudRunAudience [] sampleWorld.env).1
      = (some ⟨2⟩, none) ∧
    sampleWorld.client (some 0)
      = some { Transport := .other 7, CheckRedirect := some 1, Jar := some 2, Timeout := 30 } ∧
    ∃ (out : Outcome (Option Nat × Option GoError)) (w' : World Nat),
      ApplyGoogleCloudRunAuth sampleModels 0 (some 0) settingsAmbient
        mockCredentialsFunc (some mockTokenSourceBody) sampleWorld = (out, w') ∧
      w'.calls = sampleWorld.calls ++
        [Call.tokenSourceFunc 0 settingsAmbient.GoogleCloudRunAudience []] ∧
      w'.env = (mockTokenSourceBody 0 settingsAmbient.GoogleCloudRunAudience []
        sampleWorld.env).2 ∧
      ∃ p t : Nat, out = .returned (some p, none) ∧
        (w'.client (some p)).map Client.Transport = some (.oauth2Transport t) ∧
        w'.transport t = some { Source := some ⟨2⟩, Base := .other 7 } := by
  obtain ⟨out, w', h1, h2, h3, h4⟩ :=
    applyGoogleCloudRunAuth_without_key sampleModels 0 (some 0) settingsAmbient
      mockCredentialsFunc mockTokenSourceBody sampleWorld (by decide) (by decide) (by decide)
  exact ⟨by decide, by decide, by decide, by decide, by decide, out, w', h1, h2, h3,
    h4 (some ⟨2⟩)
      { Transport := .other 7, CheckRedirect := some 1, Jar := some 2, Timeout := 30 }
      (by decide) (by decide)⟩

/-- C5: whenever ApplyGoogleCloudRunAuth succeeds with the Google Cloud Run method
selected, the input client is a client `a` of the world before the call, the Base of the
returned client's oauth2.Transport is exactly the Transport of that input client (whatever
it is, nil included), the returned client `p` is distinct from the input and was not a
client of the world before the call, and the input client is left unchanged. -/
theorem applyGoogleCloudRunAuth_base_and_frame {σ : Type} (models : Models) (ctx : Context)
    (httpClient : Option Nat) (settings : InfinitySettings)
    (credentialsFunc : CredentialsFunc σ) (tokenSourceFunc : TokenSourceFunc σ) (w : World σ)
    (hsel : settings.AuthenticationMethod = models.AuthenticationMethodGoogleCloudRun)
    (r : Option Nat) (w' : World σ)
    (hok : ApplyGoogleCloudRunAuth models ctx httpClient settings credentialsFunc
      tokenSourceFunc w = (.returned (r, none), w')) :
    ∃ (a p t : Nat) (client : Client) (source : TokenSource),
      httpClient = some a ∧ w.client (some a) = some client ∧ r = some p ∧
      (w'.client (some p)).map Client.Transport = some (.oauth2Transport t) ∧
      w'.transport t = some { Source := source, Base := client.Transport } ∧
      p ≠ a ∧ w.client (some p) = none ∧
      w'.client (some a) = some client := by
  obtain ⟨client, source, hc, hr, hcl, htr⟩ := apply_selected_success models ctx httpClient
    settings credentialsFunc tokenSourceFunc w hsel r w' hok
  cases httpClient with
  | none => simp [World.client] at hc
  | some a =>
    have hc0 := hc
    simp only [World.client] at hc
    have ha : a < w.clients.length := by
      by_contra hge
      rw [List.getElem?_eq_none (by omega)] at hc
      simp at hc
    refine ⟨a, w.clients.length, w.transports.length, client, source, rfl, hc0, hr,
      ?_, ?_, by omega, ?_, ?_⟩
    · simp [World.client, hcl]
    · simp [World.transport, htr]
    · simp [World.client]
    · simp only [World.client, hcl]
      rw [List.getElem?_append_left ha]
      exact hc

/-- Witness of C5: a successful call on `bareWorld`, whose client has a nil Transport. -/
theorem applyGoogleCloudRunAuth_base_and_frame_witness :
    settingsAmbient.AuthenticationMethod = sampleModels.AuthenticationMethodGoogleCloudRun ∧
    ApplyGoogleCloudRunAuth sampleModels 0 (some 0) settingsAmbient mockCredentialsFunc
      mockTokenSourceFunc bareWorld = (.returned (some 1, none), bareWorldAfter) ∧
    ∃ (a p t : Nat) (client : Client) (source : TokenSource),
      some 0 = some a ∧ bareWorld.client (some a) = some client ∧ some 1 = some p ∧
      (bareWorldAfter.client (some p)).map Client.Transport = some (.oauth2Transport t) ∧
      bareWorldAfter.transport t = some { Source := source, Base := client.Transport } ∧
      p ≠ a ∧ bareWorld.client (some p) = none ∧
      bareWorldAfter.client (some a) = some client :=
  ⟨by decide, by decide,
    applyGoogleCloudRunAuth_base_and_frame sampleModels 0 (some 0) settingsAmbient
      mockCredentialsFunc mockTokenSourceFunc bareWorld (by decide) (some 1) bareWorldAfter
      (by decide)⟩

/-- C6: with the method selected and a non-empty audience, if the acquisition function on
the taken path returns an error e, the call returns a nil client and an error whose message
is "error creating credentials from JSON: " followed by e's message when the key is
non-empty, and "error creating token source: " followed by e's message when the key is
empty.  The world after the call is the world before it with that one invocation logged
and the environment advanced once: the failing function is called once, the other one is
not called (it may even be nil), and nothing is allocated. -/
theorem applyGoogleCloudRunAuth_acquisition_error {σ : Type} (models : Models)
    (ctx : Context) (httpClient : Option Nat) (settings : InfinitySettings)
    (credentialsFunc : CredentialsFunc σ) (tokenSourceFunc : TokenSourceFunc σ) (w : World σ)
    (hsel : settings.AuthenticationMethod = models.AuthenticationMethodGoogleCloudRun)
    (haud : settings.GoogleCloudRunAudience ≠ "") :
    (settings.GoogleCloudRunServiceAccountKey ≠ "" →
      ∀ (f : CredentialsBody σ) (creds : Option Credentials) (e : GoError),
        credentialsFunc = some f →
        (f ctx (bytes settings.GoogleCloudRunServiceAccountKey)
          [settings.GoogleCloudRunAudience] w.env).1 = (creds, some e) →
        ApplyGoogleCloudRunAuth models ctx httpClient settings credentialsFunc
            tokenSourceFunc w
          = (.returned (none, some ⟨"error creating credentials from JSON: " ++ e.msg⟩),
              { w with
                calls := w.calls ++ [Call.credentialsFunc ctx
                  (bytes settings.GoogleCloudRunServiceAccountKey)
                  [settings.GoogleCloudRunAudience]],
                env := (f ctx (bytes settings.GoogleCloudRunServiceAccountKey)
                  [settings.GoogleCloudRunAudience] w.env).2 })) ∧
    (settings.GoogleCloudRunServiceAccountKey = "" →
      ∀ (g : TokenSourceBody σ) (tokenSource : TokenSource) (e : GoError),
        tokenSourceFunc = some g →
        (g ctx settings.GoogleCloudRunAudience [] w.env).1 = (tokenSource, some e) →
        ApplyGoogleCloudRunAuth models ctx httpClient settings credentialsFunc
            tokenSourceFunc w
          = (.returned (none, some ⟨"error creating token source: " ++ e.msg⟩),
              { w with
                calls := w.calls ++
                  [Call.tokenSourceFunc ctx settings.GoogleCloudRunAudience []],
                env := (g ctx settings.GoogleCloudRunAudience [] w.env).2 })) := by
  constructor
  · intro hkey f creds e hf hres
    subst hf
    rw [apply_key_eq models ctx httpClient settings f tokenSourceFunc w hsel haud hkey, hres]
    simp [World.callCredentials]
  · intro hkey g tokenSource e hg hres
    subst hg
    rw [apply_ambient_eq models ctx httpClient settings credentialsFunc g w hsel haud hkey,
      hres, wrapTransport_err]
    simp [World.callTokenSource]

/-- Witness of C6: a failing credentialsFunc with a key, a failing tokenSourceFunc without;
the function that is not on the taken path is nil. -/
theorem applyGoogleCloudRunAuth_acquisition_error_witness :
    settingsKey.AuthenticationMethod = sampleModels.AuthenticationMethodGoogleCloudRun ∧
    settingsKey.GoogleCloudRunAudience ≠ "" ∧
    ApplyGoogleCloudRunAuth sampleModels 0 (some 0) settingsKey (some failingCredentialsBody)
        none sampleWorld
      = (.returned (none, some ⟨"error creating credentials from JSON: invalid character"⟩),
          { sampleWorld with
            calls := [Call.credentialsFunc 0 (bytes "test-service-account-key")
              ["https://your-cloud-run-service-url"]],
            env := 1 }) ∧
    ApplyGoogleCloudRunAuth sampleModels 0 (some 0) settingsAmbient none
        (some failingTokenSourceBody) sampleWorld
      = (.returned (none,
            some ⟨"error creating token source: could not find default credentials"⟩),
          { sampleWorld with
            calls := [Call.tokenSourceFunc 0 "https://your-cloud-run-service-url" []],
            env := 1 }) :=
  ⟨by decide, by decide,
    (applyGoogleCloudRunAuth_acquisition_error sampleModels 0 (some 0) settingsKey
      (some failingCredentialsBody) none sampleWorld (by decide) (by decide)).1
      (by decide) failingCredentialsBody none ⟨"invalid character"⟩ rfl (by decide),
    (applyGoogleCloudRunAuth_acquisition_error sampleModels 0 (some 0) settingsAmbient
      none (some failingTokenSourceBody) sampleWorld (by decide) (by decide)).2
      (by decide) failingTokenSourceBody none ⟨"could not find default credentials"⟩ rfl
      (by decide)⟩

/-- C8, as it stands, fails: with a non-nil input client, the method selected and an
audience, the call panics, so it returns neither a client nor an error, when the key is
set and credentialsFunc returns nil credentials and a nil error, when the key is set and
credentialsFunc is a nil func value, and when the key is empty and tokenSourceFunc is a
nil func value. -/
theorem nil_credentials_returns_neither :
    sampleWorld.client (some 0)
      = some { Transport := .other 7, CheckRedirect := some 1, Jar := some 2, Timeout := 30 } ∧
    (ApplyGoogleCloudRunAuth sampleModels 0 (some 0) settingsKey (some nilCredentialsBody)
      mockTokenSourceFunc sampleWorld).1 = .panicked .nilPointerDereference ∧
    (ApplyGoogleCloudRunAuth sampleModels 0 (some 0) settingsKey none
      mockTokenSourceFunc sampleWorld).1 = .panicked .nilPointerDereference ∧
    (ApplyGoogleCloudRunAuth sampleModels 0 (some 0) settingsAmbient mockCredentialsFunc
      none sampleWorld).1 = .panicked .nilPointerDereference ∧
    ¬ ∃ (r : Option Nat) (e : Option GoError),
      (ApplyGoogleCloudRunAuth sampleModels 0 (some 0) settingsAmbient mockCredentialsFunc
        none sampleWorld).1 = .returned (r, e) := by
  refine ⟨by decide, by decide, by decide, by decide, ?_⟩
  rintro ⟨r, e, h⟩
  have hp : (ApplyGoogleCloudRunAuth sampleModels 0 (some 0) settingsAmbient
      mockCredentialsFunc none sampleWorld).1 = .panicked .nilPointerDereference := by decide
  rw [hp] at h
  cases h

/-- C8, amended: for every settings record, every non-nil input client (a pointer to a
client of the world) and every pair of acquisition functions of which the one that the
call invokes is a non-nil func value (credentialsFunc when the method is selected with a
non-empty audience and a non-empty key, tokenSourceFunc when it is selected with a
non-empty audience and an empty key) and of which credentialsFunc returns non-nil
credentials whenever it returns a nil error, ApplyGoogleCloudRunAuth returns, and exactly
one of the returned client and the returned error is non-nil. -/
theorem applyGoogleCloudRunAuth_client_xor_error {σ : Type} (models : Models)
    (ctx : Context) (httpClient : Option Nat) (settings : InfinitySettings)
    (credentialsFunc : CredentialsFunc σ) (tokenSourceFunc : TokenSourceFunc σ) (w : World σ)
    (hclient : ∃ client : Client, w.client httpClient = some client)
    (hcf : settings.AuthenticationMethod = models.AuthenticationMethodGoogleCloudRun →
      settings.GoogleCloudRunAudience ≠ "" →
      settings.GoogleCloudRunServiceAccountKey ≠ "" → credentialsFunc ≠ none)
    (htf : settings.AuthenticationMethod = models.AuthenticationMethodGoogleCloudRun →
      settings.GoogleCloudRunAudience ≠ "" →
      settings.GoogleCloudRunServiceAccountKey = "" → tokenSourceFunc ≠ none)
    (hcreds : ∀ f : CredentialsBody σ, credentialsFunc = some f →
      ∀ (c : Context) (jsonKey : List UInt8) (scopes : List String) (env : σ),
        (f c jsonKey scopes env).1.2 = none → (f c jsonKey scopes env).1.1 ≠ none) :
    ∃ (r : Option Nat) (e : Option GoError) (w' : World σ),
      ApplyGoogleCloudRunAuth models ctx httpClient settings credentialsFunc tokenSourceFunc w
        = (.returned (r, e), w') ∧
      ((r ≠ none ∧ e = none) ∨ (r = none ∧ e ≠ none)) := by
  obtain ⟨client, hc⟩ := hclient
  by_cases hsel : settings.AuthenticationMethod = models.AuthenticationMethodGoogleCloudRun
  · exact apply_selected_returns models ctx httpClient settings credentialsFunc
      tokenSourceFunc w hsel client hc (hcf hsel) (htf hsel) hcreds
  · refine ⟨httpClient, none, w, apply_not_selected_eq models ctx httpClient settings
      credentialsFunc tokenSourceFunc w hsel, Or.inl ⟨?_, rfl⟩⟩
    rintro rfl
    simp [World.client] at hc

/-- Witness of C8 amended: the client at address 0, the succeeding credentialsFunc on the
path with a key, and a nil tokenSourceFunc, which that path does not invoke. -/
theorem applyGoogleCloudRunAuth_client_xor_error_witness :
    (∃ client : Client, sampleWorld.client (some 0) = some client) ∧
    settingsKey.AuthenticationMethod = sampleModels.AuthenticationMethodGoogleCloudRun ∧
    settingsKey.GoogleCloudRunAudience ≠ "" ∧
    settingsKey.GoogleCloudRunServiceAccountKey ≠ "" ∧
    (∀ (c : Context) (jsonKey : List UInt8) (scopes : List String) (env : Nat),
      (mockCredentialsBody c jsonKey scopes env).1.2 = none →
      (mockCredentialsBody c jsonKey scopes env).1.1 ≠ none) ∧
    ∃ (r : Option Nat) (e : Option GoError) (w' : World Nat),
      ApplyGoogleCloudRunAuth sampleModels 0 (some 0) settingsKey (some mockCredentialsBody)
        none sampleWorld = (.returned (r, e), w') ∧
      ((r ≠ none ∧ e = none) ∨ (r = none ∧ e ≠ none)) :=
  ⟨⟨_, rfl⟩, by decide, by decide, by decide,
    fun _ _ _ _ _ => by simp [mockCredentialsBody],
    applyGoogleCloudRunAuth_client_xor_error sampleModels 0 (some 0) settingsKey
      (some mockCredentialsBody) none sampleWorld ⟨_, rfl⟩
      (fun _ _ _ => by simp)
      (fun _ _ hkey => absurd hkey (by decide))
      (fun f hf _ _ _ _ _ => by
        cases hf
        simp [mockCredentialsBody])⟩

/-- C9: whenever ApplyGoogleCloudRunAuth succeeds with the Google Cloud Run method
selected, the Timeout, CheckRedirect and Jar of the returned client are the zero values,
and a call in a world that differs only in its clients, with an input client of the same
Transport, succeeds with the same returned pointer to an equal client, the same
transports, the same call log and the same environment. -/
theorem applyGoogleCloudRunAuth_zero_fields {σ : Type} (models : Models) (ctx : Context)
    (httpClient : Option Nat) (settings : InfinitySettings)
    (credentialsFunc : CredentialsFunc σ) (tokenSourceFunc : TokenSourceFunc σ) (w : World σ)
    (hsel : settings.AuthenticationMethod = models.AuthenticationMethodGoogleCloudRun)
    (r : Option Nat) (w' : World σ)
    (hok : ApplyGoogleCloudRunAuth models ctx httpClient settings credentialsFunc
      tokenSourceFunc w = (.returned (r, none), w')) :
    (∃ c : Client, w'.client r = some c ∧
      c.Timeout = 0 ∧ c.CheckRedirect = none ∧ c.Jar = none) ∧
    ∀ w2 : World σ, w2.transports = w.transports → w2.calls = w.calls → w2.env = w.env →
      w2.clients.length = w.clients.length →
      (w2.client httpClient).map Client.Transport
        = (w.client httpClient).map Client.Transport →
      ∃ w2' : World σ,
        ApplyGoogleCloudRunAuth models ctx httpClient settings credentialsFunc
          tokenSourceFunc w2 = (.returned (r, none), w2') ∧
        w2'.client r = w'.client r ∧ w2'.transports = w'.transports ∧
        w2'.calls = w'.calls ∧ w2'.env = w'.env := by
  constructor
  · obtain ⟨client, source, -, hr, hcl, -⟩ := apply_selected_success models ctx httpClient
      settings credentialsFunc tokenSourceFunc w hsel r w' hok
    exact ⟨{ Transport := .oauth2Transport w.transports.length, CheckRedirect := none,
             Jar := none, Timeout := 0 },
      by simp [World.client, hr, hcl], rfl, rfl, rfl⟩
  · intro w2 htr hcalls henv hlen hmap
    by_cases haud : settings.GoogleCloudRunAudience = ""
    · rw [apply_no_audience_eq models ctx httpClient settings credentialsFunc
        tokenSourceFunc w hsel haud] at hok
      simp at hok
    · by_cases hkey : settings.GoogleCloudRunServiceAccountKey = ""
      · cases tokenSourceFunc with
        | none =>
          rw [apply_ambient_nil_eq models ctx httpClient settings credentialsFunc w
            hsel haud hkey] at hok
          simp at hok
        | some g =>
          rw [apply_ambient_eq models ctx httpClient settings credentialsFunc g w
            hsel haud hkey] at hok
          rw [apply_ambient_eq models ctx httpClient settings credentialsFunc g w2
            hsel haud hkey, henv]
          cases herr : (g ctx settings.GoogleCloudRunAudience [] w.env).1.2 with
          | some e => rw [herr, wrapTransport_err] at hok; simp at hok
          | none =>
            rw [herr] at hok
            cases hc : w.client httpClient with
            | none =>
              rw [← client_callTokenSource w g ctx
                settings.GoogleCloudRunAudience []] at hc
              rw [wrapTransport_nil _ _ _ hc] at hok
              simp at hok
            | some client =>
              rw [hc] at hmap
              obtain ⟨client2, hc2, hT⟩ := Option.map_eq_some'.mp hmap
              rw [← client_callTokenSource w g ctx
                settings.GoogleCloudRunAudience []] at hc
              rw [← client_callTokenSource w2 g ctx
                settings.GoogleCloudRunAudience []] at hc2
              rw [wrapTransport_ok _ _ _ client hc] at hok
              rw [wrapTransport_ok _ _ _ client2 hc2]
              simp only [Prod.mk.injEq, Outcome.returned.injEq, and_true] at hok
              obtain ⟨rfl, rfl⟩ := hok
              refine ⟨_, Prod.ext ?_ rfl, ?_, ?_, ?_, ?_⟩
              · simp [World.callTokenSource, hlen]
              · simp [World.callTokenSource, World.client, hlen, htr]
              · simp [World.callTokenSource, htr, hT]
              · simp [World.callTokenSource, hcalls]
              · simp [World.callTokenSource, henv]
      · cases credentialsFunc with
        | none =>
          rw [apply_key_nil_eq models ctx httpClient settings tokenSourceFunc w
            hsel haud hkey] at hok
          simp at hok
        | some f =>
          rw [apply_key_eq models ctx httpClient settings f tokenSourceFunc w
            hsel haud hkey] at hok
          rw [apply_key_eq models ctx httpClient settings f tokenSourceFunc w2
            hsel haud hkey, henv]
          rcases hcf : f ctx (bytes settings.GoogleCloudRunServiceAccountKey)
            [settings.GoogleCloudRunAudience] w.env with ⟨⟨creds, err⟩, env1⟩
          rw [hcf] at hok
          cases err with
          | some e => cases creds <;> simp at hok
          | none =>
            cases creds with
            | none => simp at hok
            | some c =>
              simp only at hok ⊢
              cases hc : w.client httpClient with
              | none =>
                rw [← client_callCredentials w f ctx
                  (bytes settings.GoogleCloudRunServiceAccountKey)
                  [settings.GoogleCloudRunAudience]] at hc
                rw [wrapTransport_nil _ _ _ hc] at hok
                simp at hok
              | some client =>
                rw [hc] at hmap
                obtain ⟨client2, hc2, hT⟩ := Option.map_eq_some'.mp hmap
                rw [← client_callCredentials w f ctx
                  (bytes settings.GoogleCloudRunServiceAccountKey)
                  [settings.GoogleCloudRunAudience]] at hc
                rw [← client_callCredentials w2 f ctx
                  (bytes settings.GoogleCloudRunServiceAccountKey)
                  [settings.GoogleCloudRunAudience]] at hc2
                rw [wrapTransport_ok _ _ _ client hc] at hok
                rw [wrapTransport_ok _ _ _ client2 hc2]
                simp only [Prod.mk.injEq, Outcome.returned.injEq, and_true] at hok
                obtain ⟨rfl, rfl⟩ := hok
                refine ⟨_, Prod.ext ?_ rfl, ?_, ?_, ?_, ?_⟩
                · simp [World.callCredentials, hlen]
                · simp [World.callCredentials, World.client, hlen, htr]
                · simp [World.callCredentials, htr, hT]
                · simp [World.callCredentials, hcalls]
                · simp [World.callCredentials, henv]

/-- Witness of C9: a successful call on `sampleWorld`, compared with `otherWorld`. -/
theorem applyGoogleCloudRunAuth_zero_fields_witness :
    settingsKey.AuthenticationMethod = sampleModels.AuthenticationMethodGoogleCloudRun ∧
    ApplyGoogleCloudRunAuth sampleModels 0 (some 0) settingsKey mockCredentialsFunc
      mockTokenSourceFunc sampleWorld = (.returned (some 1, none), sampleWorldAfter) ∧
    otherWorld.clients ≠ sampleWorld.clients ∧
    (∃ c : Client, sampleWorldAfter.client (some 1) = some c ∧
      c.Timeout = 0 ∧ c.CheckRedirect = none ∧ c.Jar = none) ∧
    ∃ w2' : World Nat,
      ApplyGoogleCloudRunAuth sampleModels 0 (some 0) settingsKey mockCredentialsFunc
        mockTokenSourceFunc otherWorld = (.returned (some 1, none), w2') ∧
      w2'.client (some 1) = sampleWorldAfter.client (some 1) ∧
      w2'.transports = sampleWorldAfter.transports ∧
      w2'.calls = sampleWorldAfter.calls ∧ w2'.env = sampleWorldAfter.env :=
  ⟨by decide, by decide, by decide,
    (applyGoogleCloudRunAuth_zero_fields sampleModels 0 (some 0) settingsKey
      mockCredentialsFunc mockTokenSourceFunc sampleWorld (by decide) (some 1)
      sampleWorldAfter (by decide)).1,
    (applyGoogleCloudRunAuth_zero_fields sampleModels 0 (some 0) settingsKey
      mockCredentialsFunc mockTokenSourceFunc sampleWorld (by decide) (some 1)
      sampleWorldAfter (by decide)).2 otherWorld (by decide) (by decide) (by decide)
      (by decide) (by decide)⟩

/-- C10, as it stands, fails: with the method selected, an audience, a non-nil input client
and a credentialsFunc that returns non-nil credentials whenever it returns a nil error,
provisos (i) and (ii) hold, and the call still panics with a nil dereference when the
acquisition function that it invokes is a nil func value: tokenSourceFunc when the key is
empty, credentialsFunc (for which proviso (ii) holds vacuously) when the key is set. -/
theorem nil_func_value_panics :
    settingsAmbient.AuthenticationMethod = sampleModels.AuthenticationMethodGoogleCloudRun ∧
    settingsKey.AuthenticationMethod = sampleModels.AuthenticationMethodGoogleCloudRun ∧
    (∃ client : Client, sampleWorld.client (some 0) = some client) ∧
    (∀ (c : Context) (jsonKey : List UInt8) (scopes : List String) (env : Nat),
      (mockCredentialsBody c jsonKey scopes env).1.2 = none →
      (mockCredentialsBody c jsonKey scopes env).1.1 ≠ none) ∧
    ApplyGoogleCloudRunAuth sampleModels 0 (some 0) settingsAmbient (some mockCredentialsBody)
      none sampleWorld = (.panicked .nilPointerDereference, sampleWorld) ∧
    ApplyGoogleCloudRunAuth sampleModels 0 (some 0) settingsKey none
      (some mockTokenSourceBody) sampleWorld
      = (.panicked .nilPointerDereference, sampleWorld) := by
  refine ⟨by decide, by decide, ⟨_, rfl⟩, ?_, by decide, by decide⟩
  intro c jsonKey scopes env _
  simp [mockCredentialsBody]

/-- C10, amended: ApplyGoogleCloudRunAuth completes without a nil dereference (it returns)
for every settings record, provided that (i) the input client is non-nil (a pointer to a
client of the world) whenever the Google Cloud Run method is selected, (ii) credentialsFunc
returns non-nil credentials whenever it returns a nil error, and (iii) the acquisition
function that the call invokes is a non-nil func value (credentialsFunc when the method is
selected with a non-empty audience and a non-empty key, tokenSourceFunc when it is selected
with a non-empty audience and an empty key); and when the method is not selected, a nil
input client is returned as is with no error, the world being left as it was. -/
theorem applyGoogleCloudRunAuth_no_nil_dereference {σ : Type} (models : Models)
    (ctx : Context) (httpClient : Option Nat) (settings : InfinitySettings)
    (credentialsFunc : CredentialsFunc σ) (tokenSourceFunc : TokenSourceFunc σ) (w : World σ)
    (hclient : settings.AuthenticationMethod = models.AuthenticationMethodGoogleCloudRun →
      ∃ client : Client, w.client httpClient = some client)
    (hcreds : ∀ f : CredentialsBody σ, credentialsFunc = some f →
      ∀ (c : Context) (jsonKey : List UInt8) (scopes : List String) (env : σ),
        (f c jsonKey scopes env).1.2 = none → (f c jsonKey scopes env).1.1 ≠ none)
    (hcf : settings.AuthenticationMethod = models.AuthenticationMethodGoogleCloudRun →
      settings.GoogleCloudRunAudience ≠ "" →
      settings.GoogleCloudRunServiceAccountKey ≠ "" → credentialsFunc ≠ none)
    (htf : settings.AuthenticationMethod = models.AuthenticationMethodGoogleCloudRun →
      settings.GoogleCloudRunAudience ≠ "" →
      settings.GoogleCloudRunServiceAccountKey = "" → tokenSourceFunc ≠ none) :
    (∃ (v : Option Nat × Option GoError) (w' : World σ),
      ApplyGoogleCloudRunAuth models ctx httpClient settings credentialsFunc tokenSourceFunc w
        = (.returned v, w')) ∧
    (settings.AuthenticationMethod ≠ models.AuthenticationMethodGoogleCloudRun →
      ApplyGoogleCloudRunAuth models ctx none settings credentialsFunc tokenSourceFunc w
        = (.returned (none, none), w)) := by
  constructor
  · by_cases hsel : settings.AuthenticationMethod = models.AuthenticationMethodGoogleCloudRun
    · obtain ⟨client, hc⟩ := hclient hsel
      obtain ⟨r, e, w', h, -⟩ := apply_selected_returns models ctx httpClient settings
        credentialsFunc tokenSourceFunc w hsel client hc (hcf hsel) (htf hsel) hcreds
      exact ⟨(r, e), w', h⟩
    · exact ⟨(httpClient, none), w, apply_not_selected_eq models ctx httpClient settings
        credentialsFunc tokenSourceFunc w hsel⟩
  · intro hsel
    exact apply_not_selected_eq models ctx none settings credentialsFunc tokenSourceFunc w hsel

/-- Witness of C10 amended: a call with the method selected, a non-nil client and a key,
where tokenSourceFunc is nil and not invoked; and a call with another method selected, a
nil client and two nil func values. -/
theorem applyGoogleCloudRunAuth_no_nil_dereference_witness :
    settingsKey.AuthenticationMethod = sampleModels.AuthenticationMethodGoogleCloudRun ∧
    settingsKey.GoogleCloudRunAudience ≠ "" ∧
    settingsKey.GoogleCloudRunServiceAccountKey ≠ "" ∧
    (∃ client : Client, sampleWorld.client (some 0) = some client) ∧
    (∀ (c : Context) (jsonKey : List UInt8) (scopes : List String) (env : Nat),
      (mockCredentialsBody c jsonKey scopes env).1.2 = none →
      (mockCredentialsBody c jsonKey scopes env).1.1 ≠ none) ∧
    (∃ (v : Option Nat × Option GoError) (w' : World Nat),
      ApplyGoogleCloudRunAuth sampleModels 0 (some 0) settingsKey (some mockCredentialsBody)
        none sampleWorld = (.returned v, w')) ∧
    settingsNone.AuthenticationMethod ≠ sampleModels.AuthenticationMethodGoogleCloudRun ∧
    ApplyGoogleCloudRunAuth sampleModels 0 none settingsNone (none : CredentialsFunc Nat)
      none sampleWorld = (.returned (none, none), sampleWorld) :=
  ⟨by decide, by decide, by decide, ⟨_, rfl⟩,
    fun _ _ _ _ _ => by simp [mockCredentialsBody],
    (applyGoogleCloudRunAuth_no_nil_dereference sampleModels 0 (some 0) settingsKey
      (some mockCredentialsBody) none sampleWorld (fun _ => ⟨_, rfl⟩)
      (fun f hf _ _ _ _ _ => by
        cases hf
        simp [mockCredentialsBody])
      (fun _ _ _ => by simp)
      (fun _ _ hkey => absurd hkey (by decide))).1,
    by decide,
    (applyGoogleCloudRunAuth_no_nil_dereference sampleModels 0 none settingsNone
      (none : CredentialsFunc Nat) none sampleWorld
      (fun h => absurd h (by decide))
      (fun f hf => by cases hf)
      (fun h => absurd h (by decide))
      (fun h => absurd h (by decide))).2 (by decide)⟩

end Infinity
